import Mathlib

/-!
Verification model of `src/server.js` (Synarion backend website server).

The server is a single Express module: field validators (`validateTimeFormat`,
`validateDateFormat`), JWT-based authentication, and CRUD handlers for a
per-user weekly schedule and time-off requests backed by a document store.

Pure JS functions are translated to Lean functions on `String`/`Nat`/`Int`.
The document store is modelled as an explicit list of records threaded through
each handler; every handler returns the response together with the resulting
store.  External libraries (jsonwebtoken, bcryptjs) are modelled from the
spec's description, as marked on their definitions.
-/

namespace Server

/-! ### JS string primitives used by the validators

`validateDateFormat` runs `dateRegex.test(date.trim())` and then
`date.split('-').map(Number)`.  ECMAScript `String.prototype.trim` strips a
fixed set of whitespace code points from both ends; `Number` ignores the same
surrounding whitespace, so the numerals obtained by splitting the raw string
equal the numerals of the trimmed string whenever the trimmed string matches
`^\d{4}-\d{2}-\d{2}$` (the whitespace cannot contain a `'-'`).  We therefore
parse the trimmed character list directly. -/

/-- ECMAScript WhiteSpace / LineTerminator code points stripped by
`String.prototype.trim` (the ones representable here; exotic Unicode spaces
behave identically for our purposes). -/
def isJsSpace (c : Char) : Bool :=
  c = ' ' ∨ c = '\t' ∨ c = '\n' ∨ c = '\r' ∨ c = '\x0b' ∨ c = '\x0c' ∨
    c = ' ' ∨ c = '﻿'

/-- Model of `s.trim()` on the character list of `s`. -/
def jsTrim (cs : List Char) : List Char :=
  ((cs.dropWhile isJsSpace).reverse.dropWhile isJsSpace).reverse

/-- The regex character class `\d`. -/
def isDig (c : Char) : Bool :=
  c = '0' ∨ c = '1' ∨ c = '2' ∨ c = '3' ∨ c = '4' ∨ c = '5' ∨ c = '6' ∨
    c = '7' ∨ c = '8' ∨ c = '9'

/-- Numeric value of a digit character. -/
def digitVal (c : Char) : Nat := c.toNat - 48

/-- Match `^\d{4}-\d{2}-\d{2}$` and extract `[year, month, day]` as produced
by `date.split('-').map(Number)`. -/
def parseDateChars : List Char → Option (Nat × Nat × Nat)
  | [y1, y2, y3, y4, s1, m1, m2, s2, d1, d2] =>
    if s1 = '-' ∧ s2 = '-' ∧ isDig y1 ∧ isDig y2 ∧ isDig y3 ∧ isDig y4 ∧
        isDig m1 ∧ isDig m2 ∧ isDig d1 ∧ isDig d2 then
      some (digitVal y1 * 1000 + digitVal y2 * 100 + digitVal y3 * 10 + digitVal y4,
            digitVal m1 * 10 + digitVal m2,
            digitVal d1 * 10 + digitVal d2)
    else none
  | _ => none

/-! ### The ECMAScript `Date` constructor

`new Date(year, month - 1, day)` (a) replaces a year in `0..99` by
`year + 1900`, (b) normalizes the month index into `0..11` carrying into the
year (floor division), and (c) normalizes the day by carrying whole months.
`getFullYear() / getMonth() / getDate()` read the normalized components back
(proleptic Gregorian calendar). -/

/-- Gregorian leap-year rule on `Int`, as used by the ECMAScript calendar. -/
def isLeapI (y : Int) : Bool :=
  (y % 4 == 0 && y % 100 != 0) || (y % 400 == 0)

/-- Days in month `m` (1-based) of year `y`; total function, `31` off-range. -/
def daysInMonthI (y m : Int) : Int :=
  if m = 2 then (if isLeapI y then 29 else 28)
  else if m = 4 ∨ m = 6 ∨ m = 9 ∨ m = 11 then 30
  else 31

/-- Day-of-month normalization: carry whole months while the day component is
out of `1..daysInMonth`.  `m` is a 0-based month index in `0..11`.  The fuel
bound is generous for the two-digit day fields produced by the regex. -/
def dayNorm : Nat → Int → Int → Int → Int × Int × Int
  | 0, y, m, d => (y, m, d)
  | fuel + 1, y, m, d =>
    if d < 1 then
      if m = 0 then dayNorm fuel (y - 1) 11 (d + daysInMonthI (y - 1) 12)
      else dayNorm fuel y (m - 1) (d + daysInMonthI y m)
    else if daysInMonthI y (m + 1) < d then
      if m = 11 then dayNorm fuel (y + 1) 0 (d - daysInMonthI y (m + 1))
      else dayNorm fuel y (m + 1) (d - daysInMonthI y (m + 1))
    else (y, m, d)

/-- `new Date(ye, mi, d)` reduced to its normalized
(`getFullYear`, `getMonth`, `getDate`) triple; `mi` is the 0-based month. -/
def jsMakeDate (ye mi d : Int) : Int × Int × Int :=
  dayNorm 8 (ye + Int.fdiv mi 12) (Int.fmod mi 12) d

/-- The semantic part of `validateDateFormat`: build
`new Date(year, month - 1, day)` (with the 1900 offset for years `0..99`) and
require `getFullYear() === year && getMonth() === month - 1 &&
getDate() === day` (stated as equality of the component triples). -/
def jsDateCheck (y m d : Nat) : Bool :=
  decide (jsMakeDate (if y ≤ 99 then (y : Int) + 1900 else (y : Int)) ((m : Int) - 1) (d : Int)
    = ((y : Int), (m : Int) - 1, (d : Int)))

/-- `validateDateFormat` from `src/server.js`: regex test on the trimmed
string, then the `new Date` round-trip check on the split numerals. -/
def validateDateFormat (s : String) : Bool :=
  match parseDateChars (jsTrim s.data) with
  | none => false
  | some (y, m, d) => jsDateCheck y m d

/-! ### Characterization of the `new Date` round-trip check -/

theorem daysInMonthI_bounds (y m : Int) :
    28 ≤ daysInMonthI y m ∧ daysInMonthI y m ≤ 31 := by
  unfold daysInMonthI
  split_ifs <;> omega

theorem dayNorm_month_range (fuel : Nat) :
    ∀ y m d : Int, 0 ≤ m → m ≤ 11 →
      0 ≤ (dayNorm fuel y m d).2.1 ∧ (dayNorm fuel y m d).2.1 ≤ 11 := by
  induction fuel with
  | zero =>
    intro y m d h1 h2
    simpa [dayNorm] using ⟨h1, h2⟩
  | succ n ih =>
    intro y m d h1 h2
    simp only [dayNorm]
    split_ifs with hd hm0 hdim hm11
    · exact ih _ _ _ (by omega) (by omega)
    · exact ih _ _ _ (by omega) (by omega)
    · exact ih _ _ _ (by omega) (by omega)
    · exact ih _ _ _ (by omega) (by omega)
    · simpa using ⟨h1, h2⟩

theorem dayNorm_day_le (fuel : Nat) :
    ∀ y m d : Int, 1 ≤ d → (dayNorm fuel y m d).2.2 ≤ d := by
  induction fuel with
  | zero =>
    intro y m d h
    simp [dayNorm]
  | succ n ih =>
    intro y m d h
    simp only [dayNorm]
    split_ifs with hd hm0 hdim hm11
    · exact absurd h (by omega)
    · exact absurd h (by omega)
    · have hb := daysInMonthI_bounds y (m + 1)
      have hr := ih (y + 1) 0 (d - daysInMonthI y (m + 1)) (by omega)
      omega
    · have hb := daysInMonthI_bounds y (m + 1)
      have hr := ih y (m + 1) (d - daysInMonthI y (m + 1)) (by omega)
      omega
    · simp

theorem dayNorm_day_lt (fuel : Nat) (y m d : Int) (hfuel : 1 ≤ fuel)
    (h : daysInMonthI y (m + 1) < d) :
    (dayNorm fuel y m d).2.2 < d := by
  obtain ⟨n, rfl⟩ : ∃ n, fuel = n + 1 := ⟨fuel - 1, by omega⟩
  have hb := daysInMonthI_bounds y (m + 1)
  simp only [dayNorm]
  split_ifs with hd hm0 hm11
  · exact absurd hd (by omega)
  · exact absurd hd (by omega)
  · have hr := dayNorm_day_le n (y + 1) 0 (d - daysInMonthI y (m + 1)) (by omega)
    omega
  · have hr := dayNorm_day_le n y (m + 1) (d - daysInMonthI y (m + 1)) (by omega)
    omega

theorem dayNorm_fix (fuel : Nat) (y m d : Int) (hfuel : 1 ≤ fuel)
    (h1 : 1 ≤ d) (h2 : d ≤ daysInMonthI y (m + 1)) :
    dayNorm fuel y m d = (y, m, d) := by
  obtain ⟨n, rfl⟩ : ∃ n, fuel = n + 1 := ⟨fuel - 1, by omega⟩
  rw [dayNorm, if_neg (by omega), if_neg (by omega)]

theorem dayNorm_borrow (fuel : Nat) (y m d : Int) (hd : d < 1) :
    dayNorm (fuel + 1) y m d =
      if m = 0 then dayNorm fuel (y - 1) 11 (d + daysInMonthI (y - 1) 12)
      else dayNorm fuel y (m - 1) (d + daysInMonthI y m) := by
  rw [dayNorm, if_pos hd]

theorem dayNorm_zero (fuel : Nat) (y m : Int) (hfuel : 2 ≤ fuel) :
    28 ≤ (dayNorm fuel y m 0).2.2 ∧ (dayNorm fuel y m 0).2.2 ≤ 31 := by
  obtain ⟨n, rfl⟩ : ∃ n, fuel = n + 2 := ⟨fuel - 2, by omega⟩
  rw [dayNorm_borrow (n + 1) y m 0 (by omega)]
  rcases eq_or_ne m 0 with hm0 | hm0
  · rw [if_pos hm0]
    have h12 : daysInMonthI (y - 1) 12 = 31 := by norm_num [daysInMonthI]
    rw [h12]
    rw [dayNorm_fix (n + 1) (y - 1) 11 (0 + 31) (by omega) (by omega)
      (by rw [show (11 : Int) + 1 = 12 from rfl, h12]; omega)]
    norm_num
  · rw [if_neg hm0]
    have hb := daysInMonthI_bounds y m
    have hmm : m - 1 + 1 = m := by omega
    rw [zero_add]
    rw [dayNorm_fix (n + 1) y (m - 1) (daysInMonthI y m) (by omega) (by omega)
      (by rw [hmm])]
    simpa using hb

theorem mi_fdiv_fmod (m : Nat) (h1 : 1 ≤ m) (h2 : m ≤ 12) :
    ((m : Int) - 1).fdiv 12 = 0 ∧ ((m : Int) - 1).fmod 12 = (m : Int) - 1 := by
  interval_cases m <;> constructor <;> decide

theorem fmod_month_range (m : Nat) (h : m ≤ 99) :
    0 ≤ ((m : Int) - 1).fmod 12 ∧ ((m : Int) - 1).fmod 12 ≤ 11 := by
  interval_cases m <;> constructor <;> decide

/-- `jsDateCheck` accepts exactly the real proleptic-Gregorian calendar dates
whose year is at least `100`: the `Date` constructor's 1900 offset makes the
round-trip year comparison fail for every year below `100`. -/
theorem jsDateCheck_iff (y m d : Nat) (hm99 : m ≤ 99) :
    jsDateCheck y m d = true ↔
      (100 ≤ y ∧ 1 ≤ m ∧ m ≤ 12 ∧ 1 ≤ d ∧
        (d : Int) ≤ daysInMonthI (y : Int) (m : Int)) := by
  have hfr := fmod_month_range m hm99
  rw [jsDateCheck, decide_eq_true_eq]
  unfold jsMakeDate
  constructor
  · intro h
    have hmr := dayNorm_month_range 8
      ((if y ≤ 99 then (y : Int) + 1900 else (y : Int)) + ((m : Int) - 1).fdiv 12)
      (((m : Int) - 1).fmod 12) (d : Int) hfr.1 hfr.2
    rw [h] at hmr
    simp only [] at hmr
    have hm1 : 1 ≤ m := by omega
    have hm12 : m ≤ 12 := by omega
    obtain ⟨hf0, hfm⟩ := mi_fdiv_fmod m hm1 hm12
    rw [hf0, hfm, add_zero] at h
    rcases Nat.eq_zero_or_pos d with hd0 | hd1
    · subst hd0
      have hz := dayNorm_zero 8
        (if y ≤ 99 then (y : Int) + 1900 else (y : Int)) ((m : Int) - 1) (by omega)
      rw [show ((0 : Nat) : Int) = 0 from rfl] at h
      rw [h] at hz
      simp only [] at hz
      omega
    · by_cases hdim :
        daysInMonthI (if y ≤ 99 then (y : Int) + 1900 else (y : Int)) ((m : Int) - 1 + 1)
          < (d : Int)
      · have hlt := dayNorm_day_lt 8
          (if y ≤ 99 then (y : Int) + 1900 else (y : Int)) ((m : Int) - 1) (d : Int)
          (by omega) hdim
        rw [h] at hlt
        simp only [] at hlt
        omega
      · rw [dayNorm_fix 8 _ _ _ (by omega) (by omega) (by omega)] at h
        rw [Prod.mk.injEq, Prod.mk.injEq] at h
        by_cases hy99 : y ≤ 99
        · rw [if_pos hy99] at h
          omega
        · rw [if_neg hy99] at hdim
          rw [show (m : Int) - 1 + 1 = (m : Int) from by omega] at hdim
          exact ⟨by omega, hm1, hm12, hd1, by omega⟩
  · rintro ⟨hy100, hm1, hm12, hd1, hdim⟩
    obtain ⟨hf0, hfm⟩ := mi_fdiv_fmod m hm1 hm12
    rw [hf0, hfm, add_zero, if_neg (by omega)]
    rw [dayNorm_fix 8 _ _ _ (by omega) (by omega)
      (by rw [show (m : Int) - 1 + 1 = (m : Int) from by omega]; exact hdim)]

/-! ### Spec-side calendar definitions (§3, §4.3 of the spec)

These definitions follow the spec's words ("a real calendar date", "endDate
denotes an earlier calendar date") and are compared with the code-side
definitions above. -/

/-- Gregorian leap-year rule on `Nat`. -/
def isLeapB (y : Nat) : Bool :=
  (y % 4 == 0 && y % 100 != 0) || (y % 400 == 0)

/-- Days in 1-based month `m` of a year with leap flag `L`. -/
def dimB (L : Bool) (m : Nat) : Nat :=
  if m = 2 then (if L then 29 else 28)
  else if m = 4 ∨ m = 6 ∨ m = 9 ∨ m = 11 then 30
  else 31

theorem isLeapI_cast (y : Nat) : isLeapI (y : Int) = isLeapB y := by
  unfold isLeapI isLeapB
  rw [Bool.eq_iff_iff]
  simp only [Bool.or_eq_true, Bool.and_eq_true, beq_iff_eq, bne_iff_ne, ne_eq]
  omega

theorem daysInMonthI_cast (y m : Nat) :
    daysInMonthI (y : Int) (m : Int) = (dimB (isLeapB y) m : Int) := by
  unfold daysInMonthI dimB
  rw [isLeapI_cast]
  by_cases h2 : m = 2
  · subst h2
    norm_num
  · rw [if_neg (by omega : ¬((m : Int) = 2)), if_neg h2]
    by_cases h4 : m = 4 ∨ m = 6 ∨ m = 9 ∨ m = 11
    · rw [if_pos (by omega), if_pos h4]
      norm_num
    · rw [if_neg (by omega), if_neg h4]
      norm_num

/-- Days in the months strictly before 1-based month `m`. -/
def cumDays (L : Bool) : Nat → Nat
  | 0 => 0
  | 1 => 0
  | m + 2 => cumDays L (m + 1) + dimB L (m + 1)

/-- Leap years among `0, 1, ..., y - 1`. -/
def leapsN (y : Nat) : Nat := (y + 3) / 4 - (y + 99) / 100 + (y + 399) / 400

/-- Days in the years strictly before year `y` (proleptic Gregorian, counted
from year 0; only differences of this quantity matter). -/
def daysBeforeYear (y : Nat) : Nat := 365 * y + leapsN y

/-- Absolute ordinal of a calendar date; strictly monotone in the
year/month/day lexicographic order on real dates, hence a faithful stand-in
for the numeric value of `new Date("YYYY-MM-DD")`. -/
def dayNumber (y m d : Nat) : Nat :=
  daysBeforeYear y + cumDays (isLeapB y) m + d

/-- The dates accepted by `validateDateFormat` once parsed: year at least 100
and a real Gregorian month/day pair. -/
def validTriple (t : Nat × Nat × Nat) : Prop :=
  100 ≤ t.1 ∧ 1 ≤ t.2.1 ∧ t.2.1 ≤ 12 ∧ 1 ≤ t.2.2 ∧ t.2.2 ≤ dimB (isLeapB t.1) t.2.1

/-- Spec-side "denotes an earlier calendar date": lexicographic order on
(year, month, day). -/
def dateEarlier (a b : Nat × Nat × Nat) : Prop :=
  a.1 < b.1 ∨ (a.1 = b.1 ∧ (a.2.1 < b.2.1 ∨ (a.2.1 = b.2.1 ∧ a.2.2 < b.2.2)))

theorem cumDays_step (L : Bool) (a b : Nat) (h1 : 1 ≤ a) (h2 : a < b) (h3 : b ≤ 12) :
    cumDays L a + dimB L a ≤ cumDays L b := by
  have key : ∀ (L : Bool) (a b : Fin 13), 1 ≤ a.val → a.val < b.val →
      cumDays L a.val + dimB L a.val ≤ cumDays L b.val := by decide
  exact key L ⟨a, by omega⟩ ⟨b, by omega⟩ h1 h2

theorem cumDays_dim_le (L : Bool) (a : Nat) (h1 : 1 ≤ a) (h2 : a ≤ 12) :
    cumDays L a + dimB L a ≤ 365 + (if L then 1 else 0) := by
  have key : ∀ (L : Bool) (a : Fin 13), 1 ≤ a.val →
      cumDays L a.val + dimB L a.val ≤ 365 + (if L then 1 else 0) := by decide
  exact key L ⟨a, by omega⟩ h1

theorem daysBeforeYear_succ (y : Nat) :
    daysBeforeYear (y + 1) = daysBeforeYear y + 365 + (if isLeapB y then 1 else 0) := by
  unfold daysBeforeYear leapsN
  cases hL : isLeapB y with
  | false =>
    unfold isLeapB at hL
    simp only [Bool.or_eq_false_iff, Bool.and_eq_false_iff, beq_eq_false_iff_ne, ne_eq,
      bne_eq_false_iff_eq] at hL
    simp
    omega
  | true =>
    unfold isLeapB at hL
    simp only [Bool.or_eq_true, Bool.and_eq_true, beq_iff_eq, bne_iff_ne, ne_eq] at hL
    simp
    omega

theorem daysBeforeYear_le (y y' : Nat) (h : y ≤ y') :
    daysBeforeYear y ≤ daysBeforeYear y' := by
  induction h with
  | refl => exact le_rfl
  | @step n h ih =>
    have := daysBeforeYear_succ n
    simp only [Nat.succ_eq_add_one]
    omega

theorem daysBeforeYear_gap (y y' : Nat) (h : y < y') :
    daysBeforeYear y + 365 + (if isLeapB y then 1 else 0) ≤ daysBeforeYear y' := by
  have h1 := daysBeforeYear_succ y
  have h2 := daysBeforeYear_le (y + 1) y' h
  omega

theorem dayNumber_lt_of_earlier (y m d y' m' d' : Nat)
    (ha : validTriple (y, m, d)) (hb : validTriple (y', m', d'))
    (h : dateEarlier (y, m, d) (y', m', d')) :
    dayNumber y m d < dayNumber y' m' d' := by
  unfold validTriple at ha hb
  unfold dateEarlier at h
  simp only at ha hb h
  obtain ⟨_, ham1, ham12, had1, hadim⟩ := ha
  obtain ⟨_, hbm1, hbm12, hbd1, hbdim⟩ := hb
  unfold dayNumber
  rcases h with hy | ⟨hyeq, hrest⟩
  · have hgap := daysBeforeYear_gap y y' hy
    have hcd := cumDays_dim_le (isLeapB y) m ham1 ham12
    omega
  · subst hyeq
    rcases hrest with hm | ⟨hmeq, hd⟩
    · have hstep := cumDays_step (isLeapB y) m m' ham1 hm hbm12
      omega
    · subst hmeq
      omega

theorem dayNumber_lt_iff (y m d y' m' d' : Nat)
    (ha : validTriple (y, m, d)) (hb : validTriple (y', m', d')) :
    dayNumber y m d < dayNumber y' m' d' ↔
      dateEarlier (y, m, d) (y', m', d') := by
  constructor
  · intro h
    by_contra hne
    have htri : (y = y' ∧ m = m' ∧ d = d') ∨
        dateEarlier (y', m', d') (y, m, d) := by
      unfold dateEarlier at hne ⊢
      simp only at hne ⊢
      omega
    rcases htri with ⟨h1, h2, h3⟩ | hba
    · rw [h1, h2, h3] at h
      omega
    · have := dayNumber_lt_of_earlier y' m' d' y m d hb ha hba
      omega
  · exact dayNumber_lt_of_earlier y m d y' m' d' ha hb

/-! ### `validateDateFormat` against its spec -/

theorem digitVal_le (c : Char) (h : isDig c = true) : digitVal c ≤ 9 := by
  unfold isDig at h
  have h' := of_decide_eq_true h
  rcases h' with rfl | rfl | rfl | rfl | rfl | rfl | rfl | rfl | rfl | rfl <;> decide

theorem parseDateChars_bounds (cs : List Char) (y m d : Nat)
    (h : parseDateChars cs = some (y, m, d)) : y ≤ 9999 ∧ m ≤ 99 ∧ d ≤ 99 := by
  unfold parseDateChars at h
  split at h
  · rename_i y1 y2 y3 y4 s1 m1 m2 s2 d1 d2
    split at h
    · rename_i hc
      obtain ⟨_, _, hy1, hy2, hy3, hy4, hm1, hm2, hd1, hd2⟩ := hc
      rw [Option.some.injEq] at h
      obtain ⟨hy, hm, hd⟩ := h
      have b1 := digitVal_le y1 hy1
      have b2 := digitVal_le y2 hy2
      have b3 := digitVal_le y3 hy3
      have b4 := digitVal_le y4 hy4
      have b5 := digitVal_le m1 hm1
      have b6 := digitVal_le m2 hm2
      have b7 := digitVal_le d1 hd1
      have b8 := digitVal_le d2 hd2
      omega
    · exact absurd h (by simp)
  · exact absurd h (by simp)

/-- Spec-side reading of the claim exactly as stated: the whole string matches
`YYYY-MM-DD` (no trimming) and the numerals form a real calendar date. -/
def specIsValidDate (s : String) : Bool :=
  match parseDateChars s.data with
  | none => false
  | some (y, m, d) => decide (1 ≤ m ∧ m ≤ 12 ∧ 1 ≤ d ∧ d ≤ dimB (isLeapB y) m)

/-- Spec-side reading amended to what the code does: the string matches
`YYYY-MM-DD` after trimming surrounding whitespace, the year is at least 100,
and the numerals form a real calendar date. -/
def specIsValidDateAmended (s : String) : Bool :=
  match parseDateChars (jsTrim s.data) with
  | none => false
  | some (y, m, d) =>
    decide (100 ≤ y ∧ 1 ≤ m ∧ m ≤ 12 ∧ 1 ≤ d ∧ d ≤ dimB (isLeapB y) m)

theorem validateDateFormat_eq_amended (s : String) :
    validateDateFormat s = specIsValidDateAmended s := by
  unfold validateDateFormat specIsValidDateAmended
  cases hp : parseDateChars (jsTrim s.data) with
  | none => rfl
  | some t =>
    obtain ⟨y, m, d⟩ := t
    have hb := parseDateChars_bounds _ y m d hp
    have hiff := jsDateCheck_iff y m d hb.2.1
    have hdim : ((d : Int) ≤ daysInMonthI (y : Int) (m : Int)) ↔
        (d ≤ dimB (isLeapB y) m) := by
      rw [daysInMonthI_cast]
      omega
    show jsDateCheck y m d =
      decide (100 ≤ y ∧ 1 ≤ m ∧ m ≤ 12 ∧ 1 ≤ d ∧ d ≤ dimB (isLeapB y) m)
    by_cases hP : (100 ≤ y ∧ 1 ≤ m ∧ m ≤ 12 ∧ 1 ≤ d ∧ d ≤ dimB (isLeapB y) m)
    · rw [decide_eq_true hP]
      exact hiff.mpr ⟨hP.1, hP.2.1, hP.2.2.1, hP.2.2.2.1, hdim.mpr hP.2.2.2.2⟩
    · rw [decide_eq_false hP]
      rw [Bool.eq_false_iff]
      intro hT
      exact hP (let h' := hiff.mp hT
        ⟨h'.1, h'.2.1, h'.2.2.1, h'.2.2.2.1, hdim.mp h'.2.2.2.2⟩)

/-- `validateDateFormat` only accepts strings whose trimmed form parses to a
`validTriple`. -/
theorem validateDateFormat_valid (s : String) (h : validateDateFormat s = true) :
    ∃ y m d, parseDateChars (jsTrim s.data) = some (y, m, d) ∧
      validTriple (y, m, d) := by
  rw [validateDateFormat_eq_amended] at h
  unfold specIsValidDateAmended at h
  split at h
  · exact absurd h (by simp)
  · rename_i y m d heq
    refine ⟨y, m, d, heq, ?_⟩
    have h' := of_decide_eq_true h
    exact ⟨h'.1, h'.2.1, h'.2.2.1, h'.2.2.2.1, h'.2.2.2.2⟩

/-- C1 (counterexample).  The claim's iff fails in both directions:
`"0099-01-01"` matches `YYYY-MM-DD` and year 99, January 1 is a real calendar
date, yet `validateDateFormat` rejects it (the `Date` constructor maps years
0–99 to 1900–1999, so the year round-trip comparison fails); and
`" 2023-02-28"` does not match `YYYY-MM-DD` (leading space), yet
`validateDateFormat` accepts it (the regex is tested on the trimmed string
while `Number` ignores surrounding whitespace). -/
theorem c1_counterexample :
    specIsValidDate "0099-01-01" = true ∧
    validateDateFormat "0099-01-01" = false ∧
    specIsValidDate " 2023-02-28" = false ∧
    validateDateFormat " 2023-02-28" = true := by
  refine ⟨by decide, by decide, by decide, by decide⟩

/-- C1 (amended).  For every string `s`, `validateDateFormat s` returns true
iff `s`, after trimming surrounding whitespace, matches `YYYY-MM-DD`, the
numeric year is at least 100, and the numeric year/month/day form a real
calendar date; the four example evaluations of the claim hold as stated. -/
theorem c1_amended_date_validation (s : String) :
    validateDateFormat s = specIsValidDateAmended s ∧
    validateDateFormat "2023-02-28" = true ∧
    validateDateFormat "2023-02-30" = false ∧
    validateDateFormat "2023-13-01" = false ∧
    validateDateFormat "2023-2-1" = false :=
  ⟨validateDateFormat_eq_amended s, by decide, by decide, by decide, by decide⟩

/-! ### Time-off handlers (`src/server.js` lines 310-440)

The document store is modelled as an explicit list threaded through each
handler; a handler returns `(response, resulting store)`.  Responses are
`Except (status × message) payload`. -/

/-- JS truthiness of an optional string field of a JSON body: `undefined`
(absent field) and the empty string are the falsy cases arising for string
fields. -/
def falsy : Option String → Bool
  | none => true
  | some s => s = ""

/-- Day-granularity numeric value of `new Date("YYYY-MM-DD")`, used by the
handlers' `new Date(startDate) > new Date(finalEndDate)` comparison.  Both
operands have already passed `validateDateFormat` when the comparison runs,
so the unparseable (`NaN`) case is never reached there. -/
def jsDateValue (s : String) : Nat :=
  match parseDateChars (jsTrim s.data) with
  | some (y, m, d) => dayNumber y m d
  | none => 0

/-- A stored TimeOff document (`timeOffSchema`, lines 65-81). -/
structure TimeOffRec where
  id : Nat
  userId : Nat
  type : String
  startDate : String
  endDate : String
  description : Option String
  status : String
  createdAt : Nat
deriving DecidableEq

/-- The JSON body destructured by the time-off create/update handlers. -/
structure TimeOffBody where
  type : Option String
  startDate : Option String
  endDate : Option String
  description : Option String
deriving DecidableEq

/-- The `{ _id: id, userId: uid }` filter of `findOneAndUpdate` /
`findOneAndDelete`. -/
def timeOffMatch (uid id : Nat) (r : TimeOffRec) : Bool :=
  r.id = id && r.userId = uid

/-- First document matching the id+owner filter. -/
def findTimeOff (store : List TimeOffRec) (uid id : Nat) : Option TimeOffRec :=
  store.find? (timeOffMatch uid id)

/-- Replace the first document satisfying `p` (MongoDB `findOneAndUpdate`). -/
def replaceTimeOff : List TimeOffRec → (TimeOffRec → Bool) → TimeOffRec → List TimeOffRec
  | [], _, _ => []
  | r :: rs, p, nr => if p r then nr :: rs else r :: replaceTimeOff rs p nr

/-- Remove the first document satisfying `p` (MongoDB `findOneAndDelete`). -/
def removeTimeOff : List TimeOffRec → (TimeOffRec → Bool) → List TimeOffRec
  | [], _ => []
  | r :: rs, p => if p r then rs else r :: removeTimeOff rs p

/-- Body validation shared verbatim by the create handler (lines 326-352) and
the update handler (lines 378-404): required fields, start-date format,
`dayOff` forcing `finalEndDate = startDate`, otherwise end-date required,
end-date format, and the `new Date` order comparison.  Returns the
`finalEndDate` on success. -/
def timeOffValidate (b : TimeOffBody) : Except (Nat × String) String :=
  if falsy b.type || falsy b.startDate then
    .error (400, "Type and start date are required")
  else if ¬ validateDateFormat (b.startDate.getD "") then
    .error (400, "Invalid start date format. Use YYYY-MM-DD")
  else if b.type.getD "" = "dayOff" then
    .ok (b.startDate.getD "")
  else if falsy b.endDate then
    .error (400, "End date is required for vacation")
  else if ¬ validateDateFormat (b.endDate.getD "") then
    .error (400, "Invalid end date format. Use YYYY-MM-DD")
  else if jsDateValue (b.endDate.getD "") < jsDateValue (b.startDate.getD "") then
    .error (400, "End date must be after start date")
  else
    .ok (b.endDate.getD "")

/-- `POST /api/timeoff` (lines 321-370): validate, then insert a new document
with the schema default status `"pending"`. -/
def postTimeOff (uid nextId now : Nat) (store : List TimeOffRec) (b : TimeOffBody) :
    Except (Nat × String) TimeOffRec × List TimeOffRec :=
  match timeOffValidate b with
  | .error e => (.error e, store)
  | .ok fed =>
    let r : TimeOffRec :=
      { id := nextId
        userId := uid
        type := b.type.getD ""
        startDate := b.startDate.getD ""
        endDate := fed
        description := b.description
        status := "pending"
        createdAt := now }
    (.ok r, store ++ [r])

/-- `PUT /api/timeoff/:id` (lines 372-422): validate, then
`findOneAndUpdate({_id, userId}, {type, startDate, endDate, description})`;
404 when no document matches both the id and the caller. -/
def putTimeOff (uid : Nat) (store : List TimeOffRec) (id : Nat) (b : TimeOffBody) :
    Except (Nat × String) TimeOffRec × List TimeOffRec :=
  match timeOffValidate b with
  | .error e => (.error e, store)
  | .ok fed =>
    match findTimeOff store uid id with
    | none => (.error (404, "Time off request not found"), store)
    | some old =>
      let r : TimeOffRec :=
        { old with
          type := b.type.getD ""
          startDate := b.startDate.getD ""
          endDate := fed
          description := b.description }
      (.ok r, replaceTimeOff store (timeOffMatch uid id) r)

/-- `DELETE /api/timeoff/:id` (lines 424-440):
`findOneAndDelete({_id, userId})`; 404 when nothing matches. -/
def deleteTimeOff (uid : Nat) (store : List TimeOffRec) (id : Nat) :
    Except (Nat × String) TimeOffRec × List TimeOffRec :=
  match findTimeOff store uid id with
  | none => (.error (404, "Time off request not found"), store)
  | some r => (.ok r, removeTimeOff store (timeOffMatch uid id))

/-! ### Characterizations of the time-off handlers -/

theorem timeOffValidate_endDate (b : TimeOffBody) (fed : String)
    (h : timeOffValidate b = .ok fed) :
    (b.type.getD "" = "dayOff" ∧ fed = b.startDate.getD "") ∨
    (b.type.getD "" ≠ "dayOff" ∧ fed = b.endDate.getD "") := by
  unfold timeOffValidate at h
  split_ifs at h with h1 h2 h3 h4 h5 h6
  · rw [Except.ok.injEq] at h
    exact Or.inl ⟨h3, h.symm⟩
  · rw [Except.ok.injEq] at h
    exact Or.inr ⟨h3, h.symm⟩

theorem postTimeOff_ok (uid nextId now : Nat) (s : List TimeOffRec) (b : TimeOffBody)
    (r : TimeOffRec) (s' : List TimeOffRec)
    (h : postTimeOff uid nextId now s b = (.ok r, s')) :
    ∃ fed, timeOffValidate b = .ok fed ∧
      r = { id := nextId
            userId := uid
            type := b.type.getD ""
            startDate := b.startDate.getD ""
            endDate := fed
            description := b.description
            status := "pending"
            createdAt := now } ∧
      s' = s ++ [r] := by
  unfold postTimeOff at h
  cases hv : timeOffValidate b with
  | error e =>
    rw [hv] at h
    exact absurd h (by simp)
  | ok fed =>
    rw [hv] at h
    simp only [Prod.mk.injEq, Except.ok.injEq] at h
    exact ⟨fed, rfl, h.1.symm, by rw [← h.2, h.1]⟩

theorem putTimeOff_ok (uid : Nat) (s : List TimeOffRec) (id : Nat) (b : TimeOffBody)
    (r : TimeOffRec) (s' : List TimeOffRec)
    (h : putTimeOff uid s id b = (.ok r, s')) :
    ∃ fed old, timeOffValidate b = .ok fed ∧ findTimeOff s uid id = some old ∧
      r = { old with
            type := b.type.getD ""
            startDate := b.startDate.getD ""
            endDate := fed
            description := b.description } ∧
      s' = replaceTimeOff s (timeOffMatch uid id) r := by
  unfold putTimeOff at h
  cases hv : timeOffValidate b with
  | error e =>
    rw [hv] at h
    exact absurd h (by simp)
  | ok fed =>
    rw [hv] at h
    cases hf : findTimeOff s uid id with
    | none =>
      rw [hf] at h
      exact absurd h (by simp)
    | some old =>
      rw [hf] at h
      simp only [Prod.mk.injEq, Except.ok.injEq] at h
      exact ⟨fed, old, rfl, rfl, h.1.symm, by rw [← h.2, h.1]⟩

theorem replaceTimeOff_mem (s : List TimeOffRec) (p : TimeOffRec → Bool)
    (nr x : TimeOffRec) (hx : x ∈ replaceTimeOff s p nr) : x ∈ s ∨ x = nr := by
  induction s with
  | nil => simp [replaceTimeOff] at hx
  | cons r rs ih =>
    unfold replaceTimeOff at hx
    split_ifs at hx with hp
    · rcases List.mem_cons.mp hx with h | h
      · exact Or.inr h
      · exact Or.inl (List.mem_cons_of_mem _ h)
    · rcases List.mem_cons.mp hx with h | h
      · exact Or.inl (h ▸ List.mem_cons_self _ _)
      · rcases ih h with h' | h'
        · exact Or.inl (List.mem_cons_of_mem _ h')
        · exact Or.inr h'

theorem replaceTimeOff_mem_of_not_matched (s : List TimeOffRec) (p : TimeOffRec → Bool)
    (nr x : TimeOffRec) (hx : x ∈ s) (hp : p x = false) :
    x ∈ replaceTimeOff s p nr := by
  induction s with
  | nil => simp at hx
  | cons r rs ih =>
    unfold replaceTimeOff
    rcases List.mem_cons.mp hx with h | h
    · subst h
      rw [if_neg (by rw [hp]; exact Bool.false_ne_true)]
      exact List.mem_cons_self _ _
    · split_ifs with hpr
      · exact List.mem_cons_of_mem _ h
      · exact List.mem_cons_of_mem _ (ih h)

theorem removeTimeOff_mem (s : List TimeOffRec) (p : TimeOffRec → Bool)
    (x : TimeOffRec) (hx : x ∈ removeTimeOff s p) : x ∈ s := by
  induction s with
  | nil => simp [removeTimeOff] at hx
  | cons r rs ih =>
    unfold removeTimeOff at hx
    split_ifs at hx with hp
    · exact List.mem_cons_of_mem _ hx
    · rcases List.mem_cons.mp hx with h | h
      · exact h ▸ List.mem_cons_self _ _
      · exact List.mem_cons_of_mem _ (ih h)

/-! ### The dayOff invariant (C2) -/

/-- Store invariant: every stored `dayOff` record has `endDate = startDate`. -/
def TOInv (store : List TimeOffRec) : Prop :=
  ∀ r ∈ store, r.type = "dayOff" → r.endDate = r.startDate

/-- Time-off stores reachable through the handlers, starting from empty. -/
inductive TOReach : List TimeOffRec → Prop where
  | empty : TOReach []
  | create (uid nextId now : Nat) (b : TimeOffBody) (s s' : List TimeOffRec)
      (r : TimeOffRec) (hs : TOReach s)
      (h : postTimeOff uid nextId now s b = (.ok r, s')) : TOReach s'
  | update (uid id : Nat) (b : TimeOffBody) (s s' : List TimeOffRec)
      (r : TimeOffRec) (hs : TOReach s)
      (h : putTimeOff uid s id b = (.ok r, s')) : TOReach s'
  | remove (uid id : Nat) (s s' : List TimeOffRec) (r : TimeOffRec) (hs : TOReach s)
      (h : deleteTimeOff uid s id = (.ok r, s')) : TOReach s'

theorem postTimeOff_inv (uid nextId now : Nat) (s s' : List TimeOffRec)
    (b : TimeOffBody) (r : TimeOffRec) (hinv : TOInv s)
    (h : postTimeOff uid nextId now s b = (.ok r, s')) : TOInv s' := by
  obtain ⟨fed, hv, hr, hs'⟩ := postTimeOff_ok uid nextId now s b r s' h
  subst hs'
  intro x hx hxd
  rcases List.mem_append.mp hx with hxs | hxr
  · exact hinv x hxs hxd
  · have hxr' : x = r := by simpa using hxr
    subst hxr'
    subst hr
    simp only at hxd ⊢
    rcases timeOffValidate_endDate b fed hv with ⟨_, hfed⟩ | ⟨hne, _⟩
    · exact hfed
    · exact absurd hxd hne

theorem putTimeOff_inv (uid id : Nat) (s s' : List TimeOffRec)
    (b : TimeOffBody) (r : TimeOffRec) (hinv : TOInv s)
    (h : putTimeOff uid s id b = (.ok r, s')) : TOInv s' := by
  obtain ⟨fed, old, hv, hf, hr, hs'⟩ := putTimeOff_ok uid s id b r s' h
  subst hs'
  intro x hx hxd
  rcases replaceTimeOff_mem s (timeOffMatch uid id) r x hx with hxs | hxr
  · exact hinv x hxs hxd
  · subst hxr
    subst hr
    simp only at hxd ⊢
    rcases timeOffValidate_endDate b fed hv with ⟨_, hfed⟩ | ⟨hne, _⟩
    · exact hfed
    · exact absurd hxd hne

theorem deleteTimeOff_inv (uid id : Nat) (s s' : List TimeOffRec)
    (r : TimeOffRec) (hinv : TOInv s)
    (h : deleteTimeOff uid s id = (.ok r, s')) : TOInv s' := by
  unfold deleteTimeOff at h
  cases hf : findTimeOff s uid id with
  | none =>
    rw [hf] at h
    exact absurd h (by simp)
  | some found =>
    rw [hf] at h
    simp only [Prod.mk.injEq, Except.ok.injEq] at h
    rw [← h.2]
    intro x hx hxd
    exact hinv x (removeTimeOff_mem s (timeOffMatch uid id) x hx) hxd

theorem TOReach_inv (s : List TimeOffRec) (h : TOReach s) : TOInv s := by
  induction h with
  | empty =>
    intro r hr
    simp at hr
  | create uid nextId now b s s' r hs hstep ih =>
    exact postTimeOff_inv uid nextId now s s' b r ih hstep
  | update uid id b s s' r hs hstep ih =>
    exact putTimeOff_inv uid id s s' b r ih hstep
  | remove uid id s s' r hs hstep ih =>
    exact deleteTimeOff_inv uid id s s' r ih hstep

/-- C2: every reachable store satisfies the dayOff invariant; the create and
update handlers preserve it (they force `endDate = startDate` for `dayOff`
regardless of the client-supplied `endDate`); and creating a `dayOff` with
`startDate = "2024-05-01"` and no `endDate` stores `endDate = "2024-05-01"`. -/
theorem c2_dayOff_endDate_invariant :
    (∀ s, TOReach s → TOInv s) ∧
    (∀ uid nextId now s s' b r, TOInv s →
        postTimeOff uid nextId now s b = (.ok r, s') → TOInv s') ∧
    (∀ uid id s s' b r, TOInv s →
        putTimeOff uid s id b = (.ok r, s') → TOInv s') ∧
    postTimeOff 1 10 0 []
        { type := some "dayOff"
          startDate := some "2024-05-01"
          endDate := some "2024-07-09"
          description := none } =
      (.ok { id := 10
             userId := 1
             type := "dayOff"
             startDate := "2024-05-01"
             endDate := "2024-05-01"
             description := none
             status := "pending"
             createdAt := 0 },
       [{ id := 10
          userId := 1
          type := "dayOff"
          startDate := "2024-05-01"
          endDate := "2024-05-01"
          description := none
          status := "pending"
          createdAt := 0 }]) ∧
    postTimeOff 1 10 0 []
        { type := some "dayOff"
          startDate := some "2024-05-01"
          endDate := none
          description := none } =
      (.ok { id := 10
             userId := 1
             type := "dayOff"
             startDate := "2024-05-01"
             endDate := "2024-05-01"
             description := none
             status := "pending"
             createdAt := 0 },
       [{ id := 10
          userId := 1
          type := "dayOff"
          startDate := "2024-05-01"
          endDate := "2024-05-01"
          description := none
          status := "pending"
          createdAt := 0 }]) :=
  ⟨TOReach_inv,
   fun uid nextId now s s' b r hinv h => postTimeOff_inv uid nextId now s s' b r hinv h,
   fun uid id s s' b r hinv h => putTimeOff_inv uid id s s' b r hinv h,
   rfl, rfl⟩

/-- C2 witness: the invariant holds of the concrete store reached by creating
a dayOff record. -/
theorem c2_witness :
    TOInv [{ id := 10
             userId := 1
             type := "dayOff"
             startDate := "2024-05-01"
             endDate := "2024-05-01"
             description := none
             status := "pending"
             createdAt := 0 }] :=
  c2_dayOff_endDate_invariant.1 _
    (TOReach.create 1 10 0
      { type := some "dayOff"
        startDate := some "2024-05-01"
        endDate := none
        description := none }
      []
      [{ id := 10
         userId := 1
         type := "dayOff"
         startDate := "2024-05-01"
         endDate := "2024-05-01"
         description := none
         status := "pending"
         createdAt := 0 }]
      { id := 10
        userId := 1
        type := "dayOff"
        startDate := "2024-05-01"
        endDate := "2024-05-01"
        description := none
        status := "pending"
        createdAt := 0 }
      TOReach.empty rfl)

/-! ### Frame of the update handler (C9) and 404 on missing/foreign ids (C5) -/

/-- C9: a successful time-off update replaces exactly the type, startDate,
endDate (the computed `finalEndDate`) and description; the stored record's
id, owner, status and creation timestamp carry over unchanged, and every
stored record not matched by the id+owner filter is still in the store. -/
theorem c9_update_frame (uid : Nat) (s : List TimeOffRec) (id : Nat)
    (b : TimeOffBody) (r : TimeOffRec) (s' : List TimeOffRec)
    (h : putTimeOff uid s id b = (.ok r, s')) :
    ∃ old, findTimeOff s uid id = some old ∧
      r.status = old.status ∧ r.userId = old.userId ∧
      r.createdAt = old.createdAt ∧ r.id = old.id ∧
      r.type = b.type.getD "" ∧ r.startDate = b.startDate.getD "" ∧
      r.description = b.description ∧
      (∃ fed, timeOffValidate b = .ok fed ∧ r.endDate = fed) ∧
      s' = replaceTimeOff s (timeOffMatch uid id) r ∧
      (∀ x ∈ s, timeOffMatch uid id x = false → x ∈ s') := by
  obtain ⟨fed, old, hv, hf, hr, hs'⟩ := putTimeOff_ok uid s id b r s' h
  subst hr
  subst hs'
  refine ⟨old, hf, rfl, rfl, rfl, rfl, rfl, rfl, rfl, ⟨fed, hv, rfl⟩, rfl, ?_⟩
  intro x hx hpx
  exact replaceTimeOff_mem_of_not_matched s _ _ x hx hpx

/-- C9 witness at a concrete store and body. -/
theorem c9_witness :
    ∃ old,
      findTimeOff
          [{ id := 5
             userId := 1
             type := "vacation"
             startDate := "2024-01-01"
             endDate := "2024-01-02"
             description := none
             status := "approved"
             createdAt := 7 }] 1 5 = some old ∧
      ({ id := 5
         userId := 1
         type := "sickLeave"
         startDate := "2024-02-01"
         endDate := "2024-02-03"
         description := some "flu"
         status := "approved"
         createdAt := 7 } : TimeOffRec).status = old.status ∧
      ({ id := 5, userId := 1, type := "sickLeave", startDate := "2024-02-01",
         endDate := "2024-02-03", description := some "flu", status := "approved",
         createdAt := 7 } : TimeOffRec).userId = old.userId ∧
      ({ id := 5, userId := 1, type := "sickLeave", startDate := "2024-02-01",
         endDate := "2024-02-03", description := some "flu", status := "approved",
         createdAt := 7 } : TimeOffRec).createdAt = old.createdAt ∧
      ({ id := 5, userId := 1, type := "sickLeave", startDate := "2024-02-01",
         endDate := "2024-02-03", description := some "flu", status := "approved",
         createdAt := 7 } : TimeOffRec).id = old.id ∧
      ({ id := 5, userId := 1, type := "sickLeave", startDate := "2024-02-01",
         endDate := "2024-02-03", description := some "flu", status := "approved",
         createdAt := 7 } : TimeOffRec).type =
        (some "sickLeave" : Option String).getD "" ∧
      ({ id := 5, userId := 1, type := "sickLeave", startDate := "2024-02-01",
         endDate := "2024-02-03", description := some "flu", status := "approved",
         createdAt := 7 } : TimeOffRec).startDate =
        (some "2024-02-01" : Option String).getD "" ∧
      ({ id := 5, userId := 1, type := "sickLeave", startDate := "2024-02-01",
         endDate := "2024-02-03", description := some "flu", status := "approved",
         createdAt := 7 } : TimeOffRec).description = some "flu" ∧
      (∃ fed,
        timeOffValidate
            { type := some "sickLeave"
              startDate := some "2024-02-01"
              endDate := some "2024-02-03"
              description := some "flu" } = .ok fed ∧
        ({ id := 5, userId := 1, type := "sickLeave", startDate := "2024-02-01",
           endDate := "2024-02-03", description := some "flu", status := "approved",
           createdAt := 7 } : TimeOffRec).endDate = fed) ∧
      [({ id := 5, userId := 1, type := "sickLeave", startDate := "2024-02-01",
          endDate := "2024-02-03", description := some "flu", status := "approved",
          createdAt := 7 } : TimeOffRec)] =
        replaceTimeOff
          [{ id := 5
             userId := 1
             type := "vacation"
             startDate := "2024-01-01"
             endDate := "2024-01-02"
             description := none
             status := "approved"
             createdAt := 7 }] (timeOffMatch 1 5)
          { id := 5, userId := 1, type := "sickLeave", startDate := "2024-02-01",
            endDate := "2024-02-03", description := some "flu", status := "approved",
            createdAt := 7 } ∧
      (∀ x ∈ [({ id := 5
                 userId := 1
                 type := "vacation"
                 startDate := "2024-01-01"
                 endDate := "2024-01-02"
                 description := none
                 status := "approved"
                 createdAt := 7 } : TimeOffRec)], timeOffMatch 1 5 x = false →
        x ∈ [({ id := 5, userId := 1, type := "sickLeave", startDate := "2024-02-01",
                endDate := "2024-02-03", description := some "flu",
                status := "approved", createdAt := 7 } : TimeOffRec)]) :=
  c9_update_frame 1 _ 5
    { type := some "sickLeave"
      startDate := some "2024-02-01"
      endDate := some "2024-02-03"
      description := some "flu" } _ _ rfl

/-- C5 counterexample: an update request whose body fails validation responds
400, not 404, even though no record with the requested id exists, so the
claim's unconditional "responds 404" is false for update requests. -/
theorem c5_counterexample :
    (putTimeOff 0 [] 5
        { type := none, startDate := none, endDate := none,
          description := none }).1 =
      .error (400, "Type and start date are required") ∧
    (putTimeOff 0 [] 5
        { type := none, startDate := none, endDate := none,
          description := none }).1 ≠
      .error (404, "Time off request not found") :=
  ⟨rfl, by simp [putTimeOff, timeOffValidate, falsy]⟩

/-- C5 (amended): for delete requests unconditionally, and for update requests
whose body passes validation, a time-off id with no stored record owned by
the caller (missing id, or a record owned by a different user) yields
404 "Time off request not found" and leaves the store unchanged. -/
theorem c5_amended_notfound_ownership (uid id : Nat) (s : List TimeOffRec)
    (b : TimeOffBody) (hnone : ∀ r ∈ s, ¬(r.id = id ∧ r.userId = uid)) :
    deleteTimeOff uid s id = (.error (404, "Time off request not found"), s) ∧
    (∀ fed, timeOffValidate b = .ok fed →
      putTimeOff uid s id b = (.error (404, "Time off request not found"), s)) := by
  have hfind : findTimeOff s uid id = none := by
    unfold findTimeOff
    rw [List.find?_eq_none]
    intro x hx
    simp only [timeOffMatch, Bool.and_eq_true, decide_eq_true_eq]
    exact fun hc => hnone x hx hc
  constructor
  · unfold deleteTimeOff
    rw [hfind]
  · intro fed hv
    unfold putTimeOff
    rw [hv, hfind]

/-- C5 witness: a store that holds the requested id but owned by a different
user; delete and a validation-passing update both answer 404 and leave the
store unchanged. -/
theorem c5_witness :
    deleteTimeOff 7
        [{ id := 3
           userId := 8
           type := "vacation"
           startDate := "2024-05-01"
           endDate := "2024-05-02"
           description := none
           status := "pending"
           createdAt := 0 }] 3 =
      (.error (404, "Time off request not found"),
       [{ id := 3
          userId := 8
          type := "vacation"
          startDate := "2024-05-01"
          endDate := "2024-05-02"
          description := none
          status := "pending"
          createdAt := 0 }]) ∧
    putTimeOff 7
        [{ id := 3
           userId := 8
           type := "vacation"
           startDate := "2024-05-01"
           endDate := "2024-05-02"
           description := none
           status := "pending"
           createdAt := 0 }] 3
        { type := some "vacation"
          startDate := some "2024-05-01"
          endDate := some "2024-05-02"
          description := none } =
      (.error (404, "Time off request not found"),
       [{ id := 3
          userId := 8
          type := "vacation"
          startDate := "2024-05-01"
          endDate := "2024-05-02"
          description := none
          status := "pending"
          createdAt := 0 }]) :=
  ⟨(c5_amended_notfound_ownership 7 3 _
      { type := some "vacation"
        startDate := some "2024-05-01"
        endDate := some "2024-05-02"
        description := none } (by decide)).1,
   (c5_amended_notfound_ownership 7 3 _
      { type := some "vacation"
        startDate := some "2024-05-01"
        endDate := some "2024-05-02"
        description := none } (by decide)).2 "2024-05-02" rfl⟩

/-! ### Date ordering check of create/update (C3) -/

/-- Spec-side "`endDate` denotes an earlier calendar date than `startDate`":
both strings denote dates and the first is lexicographically earlier by
(year, month, day). -/
def denotesEarlierDate (a b : String) : Prop :=
  ∃ p q, parseDateChars (jsTrim a.data) = some p ∧
    parseDateChars (jsTrim b.data) = some q ∧ dateEarlier p q

theorem jsDateValue_lt_iff (a c : String) (hva : validateDateFormat a = true)
    (hvc : validateDateFormat c = true) :
    jsDateValue a < jsDateValue c ↔ denotesEarlierDate a c := by
  obtain ⟨y, m, d, hpa, hta⟩ := validateDateFormat_valid a hva
  obtain ⟨y', m', d', hpc, htc⟩ := validateDateFormat_valid c hvc
  unfold jsDateValue denotesEarlierDate
  rw [hpa, hpc]
  constructor
  · intro h
    refine ⟨(y, m, d), (y', m', d'), rfl, rfl, ?_⟩
    exact (dayNumber_lt_iff y m d y' m' d' hta htc).mp h
  · rintro ⟨p, q, hp, hq, hpq⟩
    rw [Option.some.injEq] at hp hq
    subst hp
    subst hq
    exact (dayNumber_lt_iff y m d y' m' d' hta htc).mpr hpq

theorem timeOffValidate_order (b : TimeOffBody) (t sd ed : String)
    (ht : b.type = some t) (ht0 : t ≠ "") (htd : t ≠ "dayOff")
    (hsd : b.startDate = some sd) (hvs : validateDateFormat sd = true)
    (hed : b.endDate = some ed) (hve : validateDateFormat ed = true) :
    timeOffValidate b =
      if jsDateValue ed < jsDateValue sd then
        .error (400, "End date must be after start date")
      else .ok ed := by
  have hsd0 : sd ≠ "" := fun hc => by
    rw [hc] at hvs
    exact absurd hvs (by decide)
  have hed0 : ed ≠ "" := fun hc => by
    rw [hc] at hve
    exact absurd hve (by decide)
  unfold timeOffValidate
  rw [ht, hsd, hed]
  simp only [Option.getD_some]
  have c1 : ¬ ((falsy (some t) || falsy (some sd)) = true) := by
    simp [falsy, ht0, hsd0]
  have c2 : ¬ ¬ (validateDateFormat sd = true) := by simp [hvs]
  have c4 : ¬ (falsy (some ed) = true) := by simp [falsy, hed0]
  have c5 : ¬ ¬ (validateDateFormat ed = true) := by simp [hve]
  rw [if_neg c1, if_neg c2, if_neg htd, if_neg c4, if_neg c5]

/-- C3: for a create or update body with a present type other than `dayOff`
and valid start/end date strings, the request fails with
400 "End date must be after start date" iff the end date denotes an earlier
calendar date than the start date; otherwise the create succeeds (equality of
dates included). -/
theorem c3_end_before_start_iff (uid nextId now id : Nat)
    (s s2 : List TimeOffRec) (b : TimeOffBody) (t sd ed : String)
    (ht : b.type = some t) (ht0 : t ≠ "") (htd : t ≠ "dayOff")
    (hsd : b.startDate = some sd) (hvs : validateDateFormat sd = true)
    (hed : b.endDate = some ed) (hve : validateDateFormat ed = true) :
    ((postTimeOff uid nextId now s b).1 =
        .error (400, "End date must be after start date") ↔
      denotesEarlierDate ed sd) ∧
    ((putTimeOff uid s2 id b).1 =
        .error (400, "End date must be after start date") ↔
      denotesEarlierDate ed sd) ∧
    (¬ denotesEarlierDate ed sd →
      ∃ r, (postTimeOff uid nextId now s b).1 = .ok r) := by
  have hval := timeOffValidate_order b t sd ed ht ht0 htd hsd hvs hed hve
  have hiff := jsDateValue_lt_iff ed sd hve hvs
  by_cases hlt : jsDateValue ed < jsDateValue sd
  · rw [if_pos hlt] at hval
    refine ⟨?_, ?_, ?_⟩
    · unfold postTimeOff
      rw [hval]
      exact iff_of_true rfl (hiff.mp hlt)
    · unfold putTimeOff
      rw [hval]
      exact iff_of_true rfl (hiff.mp hlt)
    · intro hne
      exact absurd (hiff.mp hlt) hne
  · rw [if_neg hlt] at hval
    refine ⟨?_, ?_, ?_⟩
    · unfold postTimeOff
      rw [hval]
      exact iff_of_false (by simp) (fun hse => hlt (hiff.mpr hse))
    · unfold putTimeOff
      rw [hval]
      cases hf : findTimeOff s2 uid id with
      | none => exact iff_of_false (by simp) (fun hse => hlt (hiff.mpr hse))
      | some old => exact iff_of_false (by simp) (fun hse => hlt (hiff.mpr hse))
    · intro _
      unfold postTimeOff
      rw [hval]
      exact ⟨_, rfl⟩

/-- C3 witness: a vacation with `endDate` before `startDate` fails with the
400 ordering error. -/
theorem c3_witness :
    (postTimeOff 0 1 0 []
        { type := some "vacation"
          startDate := some "2024-05-10"
          endDate := some "2024-05-05"
          description := none }).1 =
      .error (400, "End date must be after start date") :=
  (c3_end_before_start_iff 0 1 0 2 [] []
    { type := some "vacation"
      startDate := some "2024-05-10"
      endDate := some "2024-05-05"
      description := none } "vacation" "2024-05-10" "2024-05-05"
    rfl (by decide) (by decide) rfl (by decide) rfl (by decide)).1.mpr
    ⟨(2024, 5, 5), (2024, 5, 10), rfl, rfl, by simp [dateEarlier]⟩

/-! ### Schedule handlers (`src/server.js` lines 104-113 and 242-308)

The stored Schedule document is modelled as its owner plus key-value fields.
The update path goes through Mongoose's `findOneAndUpdate` against
`scheduleSchema` (lines 33-63): Mongoose's default strict mode silently
strips `$set` paths that are not declared in the schema, so only the seven
weekday keys of the request body can ever reach the stored document; the
surviving paths are then written by the store-level `$set`. -/

/-- The regex `^([01]\d|2[0-3]):([0-5]\d)$` of `validateTimeFormat`. -/
def matchesTimeShape : List Char → Bool
  | [h1, h2, c, m1, m2] =>
    c = ':' ∧
    (((h1 = '0' ∨ h1 = '1') ∧ isDig h2) ∨
      (h1 = '2' ∧ (h2 = '0' ∨ h2 = '1' ∨ h2 = '2' ∨ h2 = '3'))) ∧
    (m1 = '0' ∨ m1 = '1' ∨ m1 = '2' ∨ m1 = '3' ∨ m1 = '4' ∨ m1 = '5') ∧
    isDig m2
  | _ => false

/-- `validateTimeFormat` (lines 105-113): falsy inputs are rejected, then the
regex is tested against the trimmed string. -/
def validateTimeFormat (s : String) : Bool :=
  if s = "" then false else matchesTimeShape (jsTrim s.data)

/-- A weekday entry `{ startTime?, endTime? }` of the schedule-update body
(and of the stored document's fields). -/
structure DayUpdate where
  startTime : Option String
  endTime : Option String
deriving DecidableEq

/-- A stored Schedule document: owner reference plus raw fields. -/
structure ScheduleDoc where
  userId : Nat
  fields : List (String × DayUpdate)
deriving DecidableEq

/-- The fixed day list of the update handler (line 276). -/
def scheduleDays : List String :=
  ["Sunday", "Monday", "Tuesday", "Wednesday", "Thursday", "Friday", "Saturday"]

/-- JS property access `obj[key]` on a document / body. -/
def alookup : List (String × DayUpdate) → String → Option DayUpdate
  | [], _ => none
  | (k, v) :: rest, key => if k = key then some v else alookup rest key

/-- JS truthiness of a `startTime` / `endTime` field. -/
def truthyStr (o : Option String) : Bool := !(falsy o)

/-- The validation loop of `PUT /api/schedule` (lines 278-290): walk the days
Sunday..Saturday; for each present day object check its truthy `startTime`
and then its truthy `endTime` with `validateTimeFormat`, returning the first
error (the JS loop returns the 400 response at that point). -/
def scheduleLoopError (body : List (String × DayUpdate)) :
    List String → Option (Nat × String)
  | [] => none
  | day :: rest =>
    match alookup body day with
    | none => scheduleLoopError body rest
    | some du =>
      if truthyStr du.startTime ∧ ¬ validateTimeFormat (du.startTime.getD "") then
        some (400, "Invalid start time format for " ++ day)
      else if truthyStr du.endTime ∧ ¬ validateTimeFormat (du.endTime.getD "") then
        some (400, "Invalid end time format for " ++ day)
      else scheduleLoopError body rest

/-- MongoDB `$set` of one key: replace the field if present, else add it. -/
def setKey : List (String × DayUpdate) → String → DayUpdate → List (String × DayUpdate)
  | [], k, v => [(k, v)]
  | (k', v') :: rest, k, v =>
    if k' = k then (k, v) :: rest else (k', v') :: setKey rest k v

/-- Store-level `$set` of a whole update object: every key of the (already
schema-filtered) update is applied. -/
def applySet (fields : List (String × DayUpdate))
    (body : List (String × DayUpdate)) : List (String × DayUpdate) :=
  body.foldl (fun fs p => setKey fs p.1 p.2) fields

/-- Modelled from the spec: the document-mapping library's implicit schema
validation (§9).  Mongoose's default strict mode (nothing in `server.js`
sets `strict: false`) removes update paths not declared in `scheduleSchema`
(lines 33-63) from the `$set`, so only the seven weekday keys survive; the
`DayUpdate` value type already carries exactly the two schema subfields. -/
def strictStrip (body : List (String × DayUpdate)) : List (String × DayUpdate) :=
  body.filter (fun p => p.1 ∈ scheduleDays)

/-- `Schedule.findOne({ userId })`. -/
def findSchedule (store : List ScheduleDoc) (uid : Nat) : Option ScheduleDoc :=
  store.find? (fun doc => doc.userId = uid)

/-- Replace the first schedule document of `uid` (`findOneAndUpdate`). -/
def replaceSchedule : List ScheduleDoc → Nat → ScheduleDoc → List ScheduleDoc
  | [], _, _ => []
  | doc :: rest, uid, nd =>
    if doc.userId = uid then nd :: rest else doc :: replaceSchedule rest uid nd

/-- The default all-week 09:00-17:30 document (lines 249-258). -/
def defaultSchedule (uid : Nat) : ScheduleDoc :=
  { userId := uid
    fields := scheduleDays.map fun d => (d, ⟨some "09:00", some "17:30"⟩) }

/-- `GET /api/schedule` (lines 243-269): return the stored schedule; when
none exists, create, persist and return the default. -/
def getSchedule (uid : Nat) (store : List ScheduleDoc) :
    Except (Nat × String) ScheduleDoc × List ScheduleDoc :=
  match findSchedule store uid with
  | none => (.ok (defaultSchedule uid), store ++ [defaultSchedule uid])
  | some doc => (.ok doc, store)

/-- `PUT /api/schedule` (lines 271-308): run the validation loop, then
`findOneAndUpdate({ userId }, { $set: body })` returning the updated
document; 404 when the caller has no schedule document.  The `$set` applies
the strict-mode-surviving paths only (see `strictStrip`).  Schema-level
`runValidators` failures (e.g. an empty required subfield) surface as 500 in
the program and are not modelled; no claim below relies on the success
payload beyond the strict-mode key frame. -/
def putSchedule (uid : Nat) (store : List ScheduleDoc)
    (body : List (String × DayUpdate)) :
    Except (Nat × String) ScheduleDoc × List ScheduleDoc :=
  match scheduleLoopError body scheduleDays with
  | some e => (.error e, store)
  | none =>
    match findSchedule store uid with
    | none => (.error (404, "Schedule not found"), store)
    | some doc =>
      let nd : ScheduleDoc :=
        { doc with fields := applySet doc.fields (strictStrip body) }
      (.ok nd, replaceSchedule store uid nd)

/-! ### Lazy default creation (C6) -/

/-- C6: a schedule fetch by a user with no stored schedule persists and
returns the all-week 09:00-17:30 default, a second fetch returns the
identical document and leaves the store unchanged, and the default does set
all seven weekdays to 09:00-17:30. -/
theorem c6_lazy_default_schedule (uid : Nat) (store : List ScheduleDoc)
    (h : findSchedule store uid = none) :
    getSchedule uid store =
      (.ok (defaultSchedule uid), store ++ [defaultSchedule uid]) ∧
    getSchedule uid (store ++ [defaultSchedule uid]) =
      (.ok (defaultSchedule uid), store ++ [defaultSchedule uid]) ∧
    (∀ day ∈ scheduleDays,
      alookup (defaultSchedule uid).fields day =
        some ⟨some "09:00", some "17:30"⟩) := by
  refine ⟨?_, ?_, ?_⟩
  · unfold getSchedule
    rw [h]
  · unfold getSchedule
    have hfind : findSchedule (store ++ [defaultSchedule uid]) uid =
        some (defaultSchedule uid) := by
      unfold findSchedule at h ⊢
      rw [List.find?_append, h]
      simp [defaultSchedule]
    rw [hfind]
  · intro day hday
    fin_cases hday <;> rfl

/-- C6 witness: concrete round trip for a brand-new user. -/
theorem c6_witness :
    getSchedule 1 [] = (.ok (defaultSchedule 1), [defaultSchedule 1]) ∧
    getSchedule 1 [defaultSchedule 1] =
      (.ok (defaultSchedule 1), [defaultSchedule 1]) ∧
    alookup (defaultSchedule 1).fields "Wednesday" =
      some ⟨some "09:00", some "17:30"⟩ :=
  ⟨(c6_lazy_default_schedule 1 [] rfl).1,
   (c6_lazy_default_schedule 1 [] rfl).2.1,
   (c6_lazy_default_schedule 1 [] rfl).2.2 "Wednesday" (by decide)⟩

/-! ### Validation order of the schedule update (C7) -/

/-- One (day, field) check in the spec's examination order; `true` is the
startTime field, `false` the endTime field. -/
def checkBad (body : List (String × DayUpdate)) (day : String) (isStart : Bool) : Bool :=
  match alookup body day with
  | none => false
  | some du =>
    truthyStr (if isStart then du.startTime else du.endTime) ∧
      ¬ validateTimeFormat ((if isStart then du.startTime else du.endTime).getD "")

/-- The 400 message a bad (day, field) produces. -/
def badMsg (p : String × Bool) : Nat × String :=
  (400, (if p.2 then "Invalid start time format for "
         else "Invalid end time format for ") ++ p.1)

/-- The examination order: days in list order, startTime before endTime. -/
def fieldOrder : List String → List (String × Bool)
  | [] => []
  | d :: rest => (d, true) :: (d, false) :: fieldOrder rest

/-- First invalid (day, field) in examination order. -/
def firstBad (body : List (String × DayUpdate)) :
    List (String × Bool) → Option (String × Bool)
  | [] => none
  | (day, isStart) :: rest =>
    if checkBad body day isStart then some (day, isStart)
    else firstBad body rest

theorem firstBad_cons (body : List (String × DayUpdate)) (day : String)
    (isStart : Bool) (rest : List (String × Bool)) :
    firstBad body ((day, isStart) :: rest) =
      if checkBad body day isStart then some (day, isStart)
      else firstBad body rest := rfl

theorem scheduleLoopError_eq (body : List (String × DayUpdate)) (ds : List String) :
    scheduleLoopError body ds = (firstBad body (fieldOrder ds)).map badMsg := by
  induction ds with
  | nil => rfl
  | cons d rest ih =>
    show scheduleLoopError body (d :: rest) =
      (firstBad body ((d, true) :: (d, false) :: fieldOrder rest)).map badMsg
    rw [firstBad_cons, firstBad_cons]
    unfold scheduleLoopError
    cases hl : alookup body d with
    | none =>
      dsimp only
      have h1 : checkBad body d true = false := by
        unfold checkBad
        rw [hl]
      have h2 : checkBad body d false = false := by
        unfold checkBad
        rw [hl]
      rw [h1, h2, if_neg Bool.false_ne_true, if_neg Bool.false_ne_true]
      exact ih
    | some du =>
      dsimp only
      by_cases hs : truthyStr du.startTime = true ∧
          ¬ validateTimeFormat (du.startTime.getD "") = true
      · have h1 : checkBad body d true = true := by
          unfold checkBad
          rw [hl]
          exact decide_eq_true hs
        rw [if_pos hs, h1, if_pos rfl]
        rfl
      · have h1 : checkBad body d true = false := by
          unfold checkBad
          rw [hl]
          exact decide_eq_false hs
        rw [if_neg hs, h1, if_neg Bool.false_ne_true]
        by_cases he : truthyStr du.endTime = true ∧
            ¬ validateTimeFormat (du.endTime.getD "") = true
        · have h2 : checkBad body d false = true := by
            unfold checkBad
            rw [hl]
            exact decide_eq_true he
          rw [if_pos he, h2, if_pos rfl]
          rfl
        · have h2 : checkBad body d false = false := by
            unfold checkBad
            rw [hl]
            exact decide_eq_false he
          rw [if_neg he, h2, if_neg Bool.false_ne_true]
          exact ih

/-- C7: the schedule-update handler responds 400 with the message of the
first invalid (day, field) in the order Sunday..Saturday with startTime
before endTime, checked with `validateTimeFormat`; when every present truthy
time passes, there is no 400, and a caller without a schedule document gets
404. -/
theorem c7_schedule_validation_order (uid : Nat) (store : List ScheduleDoc)
    (body : List (String × DayUpdate)) :
    (∀ p, firstBad body (fieldOrder scheduleDays) = some p →
      putSchedule uid store body = (.error (badMsg p), store)) ∧
    (firstBad body (fieldOrder scheduleDays) = none →
      findSchedule store uid = none →
      putSchedule uid store body = (.error (404, "Schedule not found"), store)) ∧
    (firstBad body (fieldOrder scheduleDays) = none →
      ∀ msg, (putSchedule uid store body).1 ≠ .error (400, msg)) := by
  have hrel := scheduleLoopError_eq body scheduleDays
  refine ⟨?_, ?_, ?_⟩
  · intro p hp
    unfold putSchedule
    rw [hrel, hp, Option.map_some']
  · intro hnone hfind
    unfold putSchedule
    rw [hrel, hnone]
    show (match findSchedule store uid with
      | none => ((.error (404, "Schedule not found") :
          Except (Nat × String) ScheduleDoc), store)
      | some doc =>
        ((.ok { doc with fields := applySet doc.fields (strictStrip body) } :
            Except (Nat × String) ScheduleDoc),
          replaceSchedule store uid
            { doc with fields := applySet doc.fields (strictStrip body) })) =
      ((.error (404, "Schedule not found") : Except (Nat × String) ScheduleDoc), store)
    rw [hfind]
  · intro hnone msg
    unfold putSchedule
    rw [hrel, hnone]
    cases hf : findSchedule store uid with
    | none => simp
    | some doc => simp

/-- C7 witness: a bad Monday startTime is reported first; an empty store
yields 404 when validation passes. -/
theorem c7_witness :
    putSchedule 1 [] [("Monday", ⟨some "99:99", some "10:00"⟩)] =
      (.error (400, "Invalid start time format for Monday"), []) ∧
    putSchedule 1 [] [] = (.error (404, "Schedule not found"), []) :=
  ⟨(c7_schedule_validation_order 1 [] [("Monday", ⟨some "99:99", some "10:00"⟩)]).1
      ("Monday", true) (by decide),
   (c7_schedule_validation_order 1 [] []).2.1 rfl rfl⟩

/-! ### `$set` writes every body key, validation only reads weekdays (C10) -/

theorem alookup_setKey_self (fields : List (String × DayUpdate))
    (k : String) (v : DayUpdate) : alookup (setKey fields k v) k = some v := by
  induction fields with
  | nil => simp [setKey, alookup]
  | cons p rest ih =>
    unfold setKey
    split_ifs with hk
    · simp [alookup]
    · unfold alookup
      rw [if_neg hk]
      exact ih

theorem alookup_setKey_ne (fields : List (String × DayUpdate))
    (k k' : String) (v : DayUpdate) (h : k' ≠ k) :
    alookup (setKey fields k v) k' = alookup fields k' := by
  induction fields with
  | nil =>
    unfold setKey alookup
    rw [if_neg fun hc => h hc.symm]
    rfl
  | cons p rest ih =>
    unfold setKey
    split_ifs with hk
    · unfold alookup
      rw [if_neg (fun hc => h hc.symm), if_neg (by rw [hk]; exact fun hc => h hc.symm)]
    · unfold alookup
      split_ifs with hp
      · rfl
      · exact ih

theorem alookup_applySet_not_mem (body : List (String × DayUpdate)) :
    ∀ fields k, k ∉ body.map Prod.fst →
      alookup (applySet fields body) k = alookup fields k := by
  induction body with
  | nil =>
    intro fields k _
    rfl
  | cons p rest ih =>
    intro fields k hk
    simp only [List.map_cons, List.mem_cons] at hk
    push_neg at hk
    show alookup (applySet (setKey fields p.1 p.2) rest) k = alookup fields k
    rw [ih (setKey fields p.1 p.2) k hk.2]
    exact alookup_setKey_ne fields p.1 k p.2 hk.1

theorem alookup_applySet (body : List (String × DayUpdate)) :
    ∀ fields k v, (body.map Prod.fst).Nodup → (k, v) ∈ body →
      alookup (applySet fields body) k = some v := by
  induction body with
  | nil =>
    intro fields k v _ hkv
    simp at hkv
  | cons p rest ih =>
    intro fields k v hnd hkv
    simp only [List.map_cons, List.nodup_cons] at hnd
    rcases List.mem_cons.mp hkv with heq | hmem
    · subst heq
      show alookup (applySet (setKey fields k v) rest) k = some v
      rw [alookup_applySet_not_mem rest (setKey fields k v) k hnd.1]
      exact alookup_setKey_self fields k v
    · exact ih (setKey fields p.1 p.2) k v hnd.2 hmem

/-- A stored User document (`userSchema`, lines 26-31); `password` holds the
bcrypt hash. -/
structure UserRec where
  id : Nat
  username : String
  email : String
  password : String
deriving DecidableEq

/-- Modelled from the spec: bcryptjs `hash(plaintext)` of §4.1, "produces a
salted one-way hash"; symbolic constructor, treated as opaque by the
handlers. -/
def bcryptHash (plain : String) : String := "bcrypt$" ++ plain

/-- Modelled from the spec: bcryptjs `compare(plaintext, hash)` of §4.1,
"recomputes and compares". -/
def bcryptCompare (plain hash : String) : Bool := hash = bcryptHash plain

/-- A decoded signed token: payload (user id), expiry, and the signature
over payload and expiry with the signing secret. -/
structure SignedToken where
  userId : Nat
  exp : Nat
  sig : String × Nat × Nat
deriving DecidableEq

/-- Modelled from the spec: `jwt.sign({ userId }, JWT_SECRET, { expiresIn:
'24h' })` (lines 186 and 225) — "produces a signed token embedding the user
id and an expiry 24 hours from issuance" (§4.2); times in milliseconds. -/
def issueToken (secret : String) (now uid : Nat) : SignedToken :=
  { userId := uid, exp := now + 86400000, sig := (secret, uid, now + 86400000) }

/-- Modelled from the spec: `jwt.verify(token, JWT_SECRET)` (line 96) —
"checks signature validity and expiry; fails with InvalidToken if the
signature does not match, the token is malformed, or the token has expired"
(§4.2).  A malformed token decodes to `none`. -/
def verifyToken (secret : String) (now : Nat) :
    Option SignedToken → Except String Nat
  | none => .error "InvalidToken"
  | some t =>
    if t.sig ≠ (secret, t.userId, t.exp) then .error "InvalidToken"
    else if t.exp ≤ now then .error "InvalidToken"
    else .ok t.userId

/-- C4: verifying a token immediately after issuing it for `uid` yields
`uid`; verifying at or after the 24-hour expiry fails with InvalidToken; a
tampered token (signature mismatch) and a malformed token fail with
InvalidToken. -/
theorem c4_token_roundtrip (secret : String) (now uid later : Nat)
    (t : SignedToken) :
    verifyToken secret now (some (issueToken secret now uid)) = .ok uid ∧
    (now + 86400000 ≤ later →
      verifyToken secret later (some (issueToken secret now uid)) =
        .error "InvalidToken") ∧
    (t.sig ≠ (secret, t.userId, t.exp) →
      verifyToken secret now (some t) = .error "InvalidToken") ∧
    verifyToken secret now none = .error "InvalidToken" := by
  refine ⟨?_, ?_, ?_, rfl⟩
  · unfold verifyToken issueToken
    dsimp only
    rw [if_neg (by simp), if_neg (by omega)]
  · intro hexp
    unfold verifyToken issueToken
    dsimp only
    rw [if_neg (by simp), if_pos (by omega : (now + 86400000 : Nat) ≤ later)]
  · intro hsig
    unfold verifyToken
    dsimp only
    rw [if_pos hsig]

/-- C4 witness: issue-then-verify, expiry, and a concrete tampered token. -/
theorem c4_witness :
    verifyToken "s" 0 (some (issueToken "s" 0 42)) = .ok 42 ∧
    verifyToken "s" 86400000 (some (issueToken "s" 0 42)) =
      .error "InvalidToken" ∧
    verifyToken "s" 0 (some { userId := 42, exp := 5, sig := ("x", 0, 0) }) =
      .error "InvalidToken" :=
  ⟨(c4_token_roundtrip "s" 0 42 86400000 ⟨42, 5, ("x", 0, 0)⟩).1,
   (c4_token_roundtrip "s" 0 42 86400000 ⟨42, 5, ("x", 0, 0)⟩).2.1 (by omega),
   (c4_token_roundtrip "s" 0 42 86400000 ⟨42, 5, ("x", 0, 0)⟩).2.2.1 (by decide)⟩

/-- `POST /api/auth/login` (lines 203-240): required fields, find the user
by username, compare the candidate password against the stored hash;
unknown username and wrong password produce identical responses; success
issues a 24h token. -/
def loginHandler (secret : String) (now : Nat) (users : List UserRec)
    (username password : Option String) :
    Except (Nat × String) (SignedToken × UserRec) :=
  if falsy username || falsy password then
    .error (400, "All fields are required")
  else
    match users.find? (fun u => u.username = username.getD "") with
    | none => .error (400, "Invalid credentials")
    | some u =>
      if ¬ bcryptCompare (password.getD "") u.password then
        .error (400, "Invalid credentials")
      else .ok (issueToken secret now u.id, u)

/-- C8: for a login with non-empty username and password, an unknown
username and a wrong password for an existing username both produce exactly
`400 "Invalid credentials"`; the two failure causes are externally
indistinguishable. -/
theorem c8_login_indistinguishable (secret : String) (now : Nat)
    (users : List UserRec) (up pw : String) (hup : up ≠ "") (hpw : pw ≠ "") :
    (users.find? (fun u => u.username = up) = none →
      loginHandler secret now users (some up) (some pw) =
        .error (400, "Invalid credentials")) ∧
    (∀ u, users.find? (fun u => u.username = up) = some u →
      bcryptCompare pw u.password = false →
      loginHandler secret now users (some up) (some pw) =
        .error (400, "Invalid credentials")) := by
  have hc : ¬ ((falsy (some up) || falsy (some pw)) = true) := by
    simp [falsy, hup, hpw]
  constructor
  · intro hfind
    unfold loginHandler
    rw [if_neg hc]
    simp only [Option.getD_some]
    rw [hfind]
  · intro u hfind hcmp
    unfold loginHandler
    rw [if_neg hc]
    simp only [Option.getD_some]
    rw [hfind]
    dsimp only
    rw [if_pos (by rw [hcmp]; exact Bool.false_ne_true)]

/-- C8 witness: unknown username and wrong password at a concrete store give
the identical response. -/
theorem c8_witness :
    loginHandler "s" 0
        [{ id := 1, username := "alice", email := "a@x", password := bcryptHash "pw1" }]
        (some "bob") (some "pw") = .error (400, "Invalid credentials") ∧
    loginHandler "s" 0
        [{ id := 1, username := "alice", email := "a@x", password := bcryptHash "pw1" }]
        (some "alice") (some "wrong") = .error (400, "Invalid credentials") :=
  ⟨(c8_login_indistinguishable "s" 0
      [{ id := 1, username := "alice", email := "a@x", password := bcryptHash "pw1" }]
      "bob" "pw" (by decide) (by decide)).1 (by decide),
   (c8_login_indistinguishable "s" 0
      [{ id := 1, username := "alice", email := "a@x", password := bcryptHash "pw1" }]
      "alice" "wrong" (by decide) (by decide)).2
     { id := 1, username := "alice", email := "a@x", password := bcryptHash "pw1" }
     (by decide) (by decide)⟩

end Server
